import Mathlib

/-!
Verification development for the Engine API server of an execution node
(package engineapi and its consensus-side RPC client, package
execution_client).  The Go source is shallowly embedded: pure functions
become Lean functions, the chain store and the header-downloader state are
snapshots passed explicitly, machine integers are naturals with explicit
reduction modulo 2 ^ 64 / 2 ^ 256 where Go overflow semantics matter, and
external collaborators (keccak header hashing, Merkle roots, transaction
decoding, builders) are parameters of the model.
-/

namespace Erigon

/-- Block hashes, addresses and other opaque 32-byte values are modelled as
naturals; the zero value of `libcommon.Hash` is `0`. -/
abbrev Hash := Nat

def zeroHash : Hash := 0

/-- The on-wire payload status taxonomy of `engine_types`
(`VALID | INVALID | SYNCING | ACCEPTED | INVALID_BLOCK_HASH`). -/
inductive EngineStatus where
  | valid
  | invalid
  | syncing
  | accepted
  | invalidBlockHash
deriving DecidableEq, Repr

/-- Wire name of each status constant, as in `engine_types`. -/
def EngineStatus.wireName : EngineStatus → String
  | .valid => "VALID"
  | .invalid => "INVALID"
  | .syncing => "SYNCING"
  | .accepted => "ACCEPTED"
  | .invalidBlockHash => "INVALID_BLOCK_HASH"

/-- `engine_types.PayloadStatus`: status, optional latest-valid hash, optional
stringified validation error, optional critical error (set only on importer
replies). -/
structure PayloadStatus where
  status : EngineStatus
  latestValidHash : Option Hash
  validationError : Option String
  criticalError : Option String
deriving DecidableEq, Repr

/-- `engine_types.ForkChoiceState`: the (head, safe, finalized) triple. -/
structure ForkChoiceState where
  headHash : Hash
  safeBlockHash : Hash
  finalizedBlockHash : Hash
deriving DecidableEq, Repr

/-- `types.Withdrawal`. -/
structure Withdrawal where
  index : Nat
  validator : Nat
  address : Nat
  amount : Nat
deriving DecidableEq, Repr

/-- `engine_types.PayloadAttributes` (V2 form): timestamp, previous randao,
suggested fee recipient, optional withdrawals (a nil Go slice is `none`). -/
structure PayloadAttributes where
  timestamp : Nat
  prevRandao : Hash
  suggestedFeeRecipient : Nat
  withdrawals : Option (List Withdrawal)
deriving DecidableEq, Repr

/-- The canonical execution-layer header (`types.Header`), restricted to the
fields the engine server reads or writes.  Optional fields model nil
pointers. -/
structure Header where
  parentHash : Hash
  coinbase : Nat
  root : Hash
  bloom : List Nat
  baseFee : Int
  extra : List Nat
  number : Nat
  gasUsed : Nat
  gasLimit : Nat
  time : Nat
  mixDigest : Hash
  uncleHash : Hash
  difficulty : Nat
  nonce : Nat
  receiptHash : Hash
  txHash : Hash
  withdrawalsHash : Option Hash
  dataGasUsed : Option Nat
  excessDataGas : Option Nat
deriving DecidableEq, Repr

/-- `engine_types.ExecutionPayload`, the wire envelope of a block.
`withdrawals = none` models a nil JSON field / Go slice. -/
structure ExecutionPayload where
  parentHash : Hash
  feeRecipient : Nat
  stateRoot : Hash
  receiptsRoot : Hash
  logsBloom : List Nat
  prevRandao : Hash
  blockNumber : Nat
  gasLimit : Nat
  gasUsed : Nat
  timestamp : Nat
  extraData : List Nat
  baseFeePerGas : Int
  blockHash : Hash
  transactions : List (List Nat)
  withdrawals : Option (List Withdrawal)
  dataGasUsed : Option Nat
  excessDataGas : Option Nat
deriving DecidableEq, Repr

/-- `clparams.StateVersion` constants (integer enum). -/
def bellatrixVersion : Nat := 2

def capellaVersion : Nat := 3

def denebVersion : Nat := 4

/-- A transaction as the engine server sees it: type byte, binary encoding
(`MarshalBinary` output), effective-gas-tip semantics as a function of the
base fee (external EIP-1559/legacy rules), and the blob-wrapper payload used
by `getPayload` for `BlobTxType` transactions. -/
structure Txn where
  typ : Nat
  encoded : List Nat
  effectiveGasTipAt : Int → Nat
  isBlobWrapper : Bool
  versionedHashes : List Hash
  commitments : List (List Nat)
  proofs : List (List Nat)
  blobs : List (List Nat)

/-- `types.BlobTxType`. -/
def blobTxType : Nat := 3

/-- A stored block (`types.Block`), with its stored hash
(`NewBlockFromStorage` keeps the stated hash). -/
structure Block where
  hash : Hash
  header : Header
  transactions : List Txn
  withdrawals : Option (List Withdrawal)

/-- `types.Receipt`, restricted to the field `blockValue` reads. -/
structure Receipt where
  gasUsed : Nat
deriving DecidableEq, Repr

/-- `types.BlockWithReceipts`. -/
structure BlockWithReceipts where
  block : Block
  receipts : List Receipt

/-- `chain.Config`, restricted to what the engine server consults: the
terminal total difficulty and the Shanghai / Cancun activation timestamps. -/
structure ChainConfig where
  terminalTotalDifficulty : Option Nat
  shanghaiTime : Option Nat
  cancunTime : Option Nat

/-- `chain.Config.IsShanghai(time)`: activated iff a Shanghai time is
configured and is at most `time`. -/
def ChainConfig.isShanghai (c : ChainConfig) (time : Nat) : Bool :=
  match c.shanghaiTime with
  | some t => decide (t ≤ time)
  | none => false

/-- `chain.Config.IsCancun(time)`. -/
def ChainConfig.isCancun (c : ChainConfig) (time : Nat) : Bool :=
  match c.cancunTime with
  | some t => decide (t ≤ time)
  | none => false

/-- External pure collaborators of the server: keccak header hashing
(`types.Header.Hash`), Merkle roots (`types.DeriveSha`), the double-encoding
detector and the transaction decoder from `types`.  They live outside the
embedded package and are treated as parameters of the model. -/
structure Ext where
  headerHash : Header → Hash
  deriveShaTransactions : List (List Nat) → Hash
  deriveShaWithdrawals : List Withdrawal → Hash
  typedTxnMarshalledAsRlpString : List Nat → Bool
  decodeTransactions : List (List Nat) → Except String (List Txn)

/-- Snapshot of the header downloader (`headerdownload.HeaderDownload`) as the
classifier consults it: PoS-sync flag, whether `PosStatus()` is `Idle`, the
bad-header memory (`IsBadHeaderPoS`: `some lastValidHash` when bad), and the
outcome of the 1-second `stageLoopIsBusy` probe. -/
structure HeaderDownload where
  posSync : Bool
  posStatusIdle : Bool
  badHeaderPoS : Hash → Option Hash
  stageLoopBusy : Bool

/-- Read-only snapshot of the chain store as seen through `rawdb` and the
block reader.  A canonical hash of `0` at a height means the height is beyond
the last known canonical header (a gap). -/
structure ChainStore where
  forkchoiceHead : Hash
  forkchoiceSafe : Hash
  forkchoiceFinalized : Hash
  headerByHash : Hash → Option Header
  tdByHash : Hash → Option Nat
  canonicalHashAt : Nat → Hash
  headBlockHash : Hash
  blockWithSenders : Hash → Nat → Option Block

/-- The immutable part of `EngineServer`: chain config, external pure
collaborators, downloader snapshot and the proposer flag. -/
structure EngineEnv where
  config : ChainConfig
  ext : Ext
  hd : HeaderDownload
  proposing : Bool

/-- The repeated-forkchoice test at the top of
`getQuickPayloadStatusIfPossible`: the message is non-nil and its triple
equals the persisted forkchoice triple. -/
def fcuTripleMatchesStore (msg : Option ForkChoiceState) (store : ChainStore) : Bool :=
  match msg with
  | none => false
  | some f =>
    decide (f.finalizedBlockHash = store.forkchoiceFinalized) &&
      decide (f.headHash = store.forkchoiceHead) &&
      decide (f.safeBlockHash = store.forkchoiceSafe)

/-- The pre-merge test `td != nil && td.Cmp(ttd) < 0`. -/
def tdBelowTerminal (td : Option Nat) (ttd : Nat) : Bool :=
  match td with
  | some t => decide (t < ttd)
  | none => false

/-- Shared tail of the classifier: probe the stage loop (bounded 1 s); busy
means `SYNCING`, otherwise no decision.  The second component of every
classifier result lists the `ReportBadHeaderPoS` side effects. -/
def quickBusyCheck (env : EngineEnv) : Option PayloadStatus × List (Hash × Hash) :=
  if env.hd.stageLoopBusy then
    (some ⟨.syncing, none, none, none⟩, [])
  else
    (none, [])

/-- Classifier logic after the TTD / PoS-sync checks: bad-header memory, then
the known-header / missing-parent decisions, then the busy probe. -/
def quickStatusLate (env : EngineEnv) (store : ChainStore) (blockHash parentHash : Hash)
    (isNewPayload : Bool) (header parent : Option Header) (canonicalHash : Hash) :
    Option PayloadStatus × List (Hash × Hash) :=
  let bad : Option Hash :=
    match env.hd.badHeaderPoS blockHash with
    | some lastValidHash => some lastValidHash
    | none => if isNewPayload then env.hd.badHeaderPoS parentHash else none
  match bad with
  | some lastValidHash =>
    (some ⟨.invalid, some lastValidHash, none, none⟩, [(blockHash, lastValidHash)])
  | none =>
    if isNewPayload then
      if header.isSome ∧ canonicalHash = blockHash then
        (some ⟨.valid, some blockHash, none, none⟩, [])
      else if parent = none ∧ ¬ env.hd.posStatusIdle then
        (some ⟨.syncing, none, none, none⟩, [])
      else
        quickBusyCheck env
    else
      if header = none ∧ ¬ env.hd.posStatusIdle then
        (some ⟨.syncing, none, none, none⟩, [])
      else
        if blockHash ≠ store.headBlockHash ∧ canonicalHash = blockHash then
          (some ⟨.valid, some blockHash, none, none⟩, [])
        else
          quickBusyCheck env

/-- `EngineServer.getQuickPayloadStatusIfPossible`: the fast-path Status
Classifier.  Returns an error, or a decided status (with the list of
bad-header reports it issued), or `none` meaning defer to the importer. -/
def getQuickPayloadStatusIfPossible (env : EngineEnv) (store : ChainStore) (blockHash : Hash)
    (blockNumber : Nat) (parentHash : Hash) (forkchoiceMessage : Option ForkChoiceState)
    (isNewPayload : Bool) : Except String (Option PayloadStatus × List (Hash × Hash)) :=
  match env.config.terminalTotalDifficulty with
  | none => .error "not a proof-of-stake chain"
  | some ttd =>
    if fcuTripleMatchesStore forkchoiceMessage store then
      .ok (some ⟨.valid, some blockHash, none, none⟩, [])
    else
      let header := store.headerByHash blockHash
      let parent := if isNewPayload then store.headerByHash parentHash else none
      let td := if isNewPayload then store.tdByHash parentHash else store.tdByHash blockHash
      if tdBelowTerminal td ttd then
        .ok (some ⟨.invalid, some zeroHash, none, none⟩, [])
      else if ¬ env.hd.posSync then
        .ok (some ⟨.syncing, none, none, none⟩, [])
      else
        let canonicalHash :=
          match header with
          | some h => store.canonicalHashAt h.number
          | none => zeroHash
        match parent with
        | some p =>
          if isNewPayload ∧ blockNumber ≠ p.number + 1 then
            .ok (some ⟨.invalid, some (env.ext.headerHash p), some "invalid block number", none⟩,
              [(blockHash, env.ext.headerHash p)])
          else
            .ok (quickStatusLate env store blockHash parentHash isNewPayload header parent canonicalHash)
        | none =>
          .ok (quickStatusLate env store blockHash parentHash isNewPayload header parent canonicalHash)

/-- Protocol-level failures surfaced as JSON-RPC errors: the mandated Engine
API error objects (`rpc.InvalidParamsError`, `engine_helpers` errors), fatal
infrastructure errors with their message, and a marker for a Go nil-pointer
dereference (the embedding makes the crash explicit instead of crashing). -/
inductive EngineError where
  | invalidParams (msg : String)
  | tooLargeRequest
  | unknownPayload
  | invalidPayloadAttributes
  | notProposer
  | fatal (msg : String)
  | nilDeref
deriving DecidableEq, Repr

/-- `EngineServer.checkWithdrawalsPresence`: `none` means the check passed,
otherwise the `INVALID_PARAMS` error returned. -/
def checkWithdrawalsPresence (c : ChainConfig) (time : Nat)
    (withdrawals : Option (List Withdrawal)) : Option EngineError :=
  if ¬ c.isShanghai time ∧ withdrawals ≠ none then
    some (.invalidParams "withdrawals before shanghai")
  else if c.isShanghai time ∧ withdrawals = none then
    some (.invalidParams "missing withdrawals list")
  else
    none

/-- `types.EmptyUncleHash` (an opaque constant in the model). -/
def emptyUncleHash : Hash := 1

/-- The withdrawals list `newPayload` works with: the envelope's list is kept
only from the Capella version on. -/
def versionedWithdrawals (req : ExecutionPayload) (version : Nat) : Option (List Withdrawal) :=
  if capellaVersion ≤ version then req.withdrawals else none

/-- Header reconstruction inside `newPayload`: the envelope fields plus the
four synthetic fields (empty-uncles hash, zero difficulty, zero nonce, Merkle
root of the raw transaction list), the withdrawals root when a withdrawals
list is present after version gating, and the Deneb data-gas fields from the
Deneb version on. -/
def reconstructHeader (ext : Ext) (req : ExecutionPayload) (version : Nat) : Header :=
  { parentHash := req.parentHash
    coinbase := req.feeRecipient
    root := req.stateRoot
    bloom := req.logsBloom
    baseFee := req.baseFeePerGas
    extra := req.extraData
    number := req.blockNumber
    gasUsed := req.gasUsed
    gasLimit := req.gasLimit
    time := req.timestamp
    mixDigest := req.prevRandao
    uncleHash := emptyUncleHash
    difficulty := 0
    nonce := 0
    receiptHash := req.receiptsRoot
    txHash := ext.deriveShaTransactions req.transactions
    withdrawalsHash := (versionedWithdrawals req version).map ext.deriveShaWithdrawals
    dataGasUsed := if denebVersion ≤ version then req.dataGasUsed else none
    excessDataGas := if denebVersion ≤ version then req.excessDataGas else none }

/-- Outcome of `EngineServer.newPayload` up to the importer hand-off: a
JSON-RPC error, a `PayloadStatus` returned without importer involvement, or
the block enqueued to the importer via `AddPayloadRequest`. -/
inductive NewPayloadOutcome where
  | err (e : EngineError)
  | status (ps : PayloadStatus)
  | toImporter (blockHash : Hash) (header : Header) (txs : List Txn)
      (withdrawals : Option (List Withdrawal))

/-- `EngineServer.newPayload`: header reconstruction, fork-gated field checks,
block-hash verification, transaction well-formedness checks, then the fast
path; only when the classifier gives no decision is the block enqueued. -/
def newPayload (env : EngineEnv) (store : ChainStore) (req : ExecutionPayload)
    (version : Nat) : NewPayloadOutcome :=
  let withdrawals := versionedWithdrawals req version
  let header := reconstructHeader env.ext req version
  match checkWithdrawalsPresence env.config header.time withdrawals with
  | some e => .err e
  | none =>
    if ¬ env.config.isCancun header.time ∧
        (header.dataGasUsed ≠ none ∨ header.excessDataGas ≠ none) then
      .err (.invalidParams "dataGasUsed/excessDataGas present before Cancun")
    else if env.config.isCancun header.time ∧
        (header.dataGasUsed = none ∨ header.excessDataGas = none) then
      .err (.invalidParams "dataGasUsed/excessDataGas missing")
    else if env.ext.headerHash header ≠ req.blockHash then
      .status ⟨.invalid, none, some "invalid block hash", none⟩
    else if req.transactions.any env.ext.typedTxnMarshalledAsRlpString then
      .status ⟨.invalid, none, some "typed txn marshalled as RLP string", none⟩
    else
      match env.ext.decodeTransactions req.transactions with
      | .error e => .status ⟨.invalid, none, some e, none⟩
      | .ok txs =>
        match getQuickPayloadStatusIfPossible env store req.blockHash req.blockNumber
            header.parentHash none true with
        | .error e => .err (.fatal e)
        | .ok (some possibleStatus, _) => .status possibleStatus
        | .ok (none, _) => .toImporter req.blockHash header txs withdrawals

/-- `core.BlockBuilderParameters` as filled by `forkchoiceUpdated`; compared
structurally (`reflect.DeepEqual`) for deduplication, payload id included. -/
structure BlockBuilderParameters where
  parentHash : Hash
  timestamp : Nat
  prevRandao : Hash
  suggestedFeeRecipient : Nat
  withdrawals : Option (List Withdrawal)
  payloadId : Nat
deriving DecidableEq, Repr

/-- The mutable proposer state of `EngineServer`: the monotonic payload-id
counter (a uint64), the last build parameters, and the id set of the builder
registry (builder objects themselves are external). -/
structure ServerState where
  payloadId : Nat
  lastParameters : Option BlockBuilderParameters
  builders : Finset Nat
deriving DecidableEq

/-- Modelled from the spec: `engine_helpers.MaxBuilders`, the registry bound
(implementation constant, suggested 128); its definition is outside the
embedded files. -/
def MaxBuilders : Nat := 128

/-- The loop body of `EngineServer.evictOldBuilders`:
`for i := 0; i <= len(s.builders)-MaxBuilders; i++ { delete(s.builders, ids[i]) }`
with `ids` the ascending sorted keys of the original map and the map length
re-read (as a Go int, hence the integer comparison) on every iteration. -/
def evictLoop (ids : List Nat) (builders : Finset Nat) (i : Nat) : Nat → Finset Nat
  | 0 => builders
  | fuel + 1 =>
    if (i : Int) ≤ (builders.card : Int) - (MaxBuilders : Int) then
      evictLoop ids (builders.erase (ids.getD i 0)) (i + 1) fuel
    else
      builders

/-- `EngineServer.evictOldBuilders`.  The fuel `card + 1` dominates the loop
trip count, so the fuelled loop equals the Go loop. -/
def evictOldBuilders (builders : Finset Nat) : Finset Nat :=
  evictLoop (builders.sort (· ≤ ·)) builders 0 (builders.card + 1)

/-- `convertPayloadId`: 8 bytes, big-endian of the 64-bit counter
(`binary.BigEndian.PutUint64`). -/
def convertPayloadId (payloadId : Nat) : List Nat :=
  [payloadId / 2 ^ 56 % 256, payloadId / 2 ^ 48 % 256, payloadId / 2 ^ 40 % 256,
    payloadId / 2 ^ 32 % 256, payloadId / 2 ^ 24 % 256, payloadId / 2 ^ 16 % 256,
    payloadId / 2 ^ 8 % 256, payloadId % 256]

/-- `engine_types.ForkChoiceUpdatedResponse`: payload status plus the optional
encoded payload id. -/
structure ForkChoiceUpdatedResponse where
  payloadStatus : PayloadStatus
  payloadId : Option (List Nat)
deriving DecidableEq, Repr

/-- The normalised build-parameter record `forkchoiceUpdated` fills before
deduplication: head hash as parent, the attribute fields, withdrawals only
from the Capella version on, and the given payload id. -/
def buildParams (forkChoice : ForkChoiceState) (attrs : PayloadAttributes) (version : Nat)
    (payloadId : Nat) : BlockBuilderParameters :=
  { parentHash := forkChoice.headHash
    timestamp := attrs.timestamp
    prevRandao := attrs.prevRandao
    suggestedFeeRecipient := attrs.suggestedFeeRecipient
    withdrawals := if capellaVersion ≤ version then attrs.withdrawals else none
    payloadId := payloadId }

/-- Result of one `forkchoiceUpdated` call: the outcome returned to the
client, the server state afterwards, whether the request was forwarded to the
importer (`AddForkChoiceRequest`), and how many builders were instantiated
(`builder.NewBlockBuilder` calls). -/
structure FcuResult where
  outcome : Except EngineError ForkChoiceUpdatedResponse
  state : ServerState
  usedImporter : Bool
  buildersCreated : Nat

/-- The part of `EngineServer.forkchoiceUpdated` after a payload status has
been obtained (from the classifier or from the importer reply): attribute
handling, side-branch suppression, deduplication, eviction and builder
creation.   The head header is read in two `rawdb` steps in Go
(`ReadHeaderNumber` then `ReadHeader`); an absent header makes Go dereference
a nil pointer, surfaced here as `nilDeref`. -/
def forkchoiceUpdatedPost (env : EngineEnv) (store : ChainStore) (st : ServerState)
    (forkChoice : ForkChoiceState) (payloadAttributes : Option PayloadAttributes)
    (version : Nat) (status : PayloadStatus) (usedImporter : Bool) : FcuResult :=
  match payloadAttributes with
  | none => ⟨.ok ⟨status, none⟩, st, usedImporter, 0⟩
  | some attrs =>
    if status.status ≠ .valid then
      ⟨.ok ⟨status, none⟩, st, usedImporter, 0⟩
    else if ¬ env.proposing then
      ⟨.error .notProposer, st, usedImporter, 0⟩
    else
      let headHash := store.headBlockHash
      match store.headerByHash headHash with
      | none => ⟨.error .nilDeref, st, usedImporter, 0⟩
      | some headHeader =>
        if env.ext.headerHash headHeader ≠ forkChoice.headHash then
          ⟨.ok ⟨status, none⟩, st, usedImporter, 0⟩
        else if attrs.timestamp ≤ headHeader.time then
          ⟨.error .invalidPayloadAttributes, st, usedImporter, 0⟩
        else
          let param := buildParams forkChoice attrs version st.payloadId
          match checkWithdrawalsPresence env.config attrs.timestamp param.withdrawals with
          | some e => ⟨.error e, st, usedImporter, 0⟩
          | none =>
            if st.lastParameters = some param then
              ⟨.ok ⟨⟨.valid, some headHash, none, none⟩, some (convertPayloadId st.payloadId)⟩,
                st, usedImporter, 0⟩
            else
              let evicted := evictOldBuilders st.builders
              let newId := (st.payloadId + 1) % 2 ^ 64
              ⟨.ok ⟨⟨.valid, some headHash, none, none⟩, some (convertPayloadId newId)⟩,
                ⟨newId, some (buildParams forkChoice attrs version newId), insert newId evicted⟩,
                usedImporter, 1⟩

/-- `EngineServer.forkchoiceUpdated`.  The importer reply (the value read from
`PayloadStatusCh` after `AddForkChoiceRequest`) is a parameter; it is consumed
only when the classifier gives no decision. -/
def forkchoiceUpdated (env : EngineEnv) (store : ChainStore) (st : ServerState)
    (forkchoiceState : ForkChoiceState) (payloadAttributes : Option PayloadAttributes)
    (version : Nat) (importerReply : PayloadStatus) : FcuResult :=
  match getQuickPayloadStatusIfPossible env store forkchoiceState.headHash 0 zeroHash
      (some forkchoiceState) false with
  | .error e => ⟨.error (.fatal e), st, false, 0⟩
  | .ok (some status, _) =>
    forkchoiceUpdatedPost env store st forkchoiceState payloadAttributes version status false
  | .ok (none, _) =>
    match importerReply.criticalError with
    | some e => ⟨.error (.fatal e), st, true, 0⟩
    | none =>
      forkchoiceUpdatedPost env store st forkchoiceState payloadAttributes version
        importerReply true

/-- `engine_types.BlobsBundleV1`. -/
structure BlobsBundle where
  commitments : List (List Nat)
  proofs : List (List Nat)
  blobs : List (List Nat)
deriving DecidableEq, Repr

/-- `engine_types.GetPayloadResponse`: envelope, block value (a uint256),
blobs bundle. -/
structure GetPayloadResponse where
  executionPayload : ExecutionPayload
  blockValue : Nat
  blobsBundle : BlobsBundle
deriving DecidableEq, Repr

/-- `blockValue`: Σ gasUsed·effectiveGasTip(baseFee) over transactions in
receipt order, with uint256 wrap-around on the multiply and the running
sum. -/
def blockValue (br : BlockWithReceipts) (baseFee : Int) : Nat :=
  (br.block.transactions.zip br.receipts).foldl
    (fun acc p => (acc + (p.1.effectiveGasTipAt baseFee * p.2.gasUsed) % 2 ^ 256) % 2 ^ 256) 0

/-- The blob-collection loop of `getPayload`: skip non-blob transactions,
fail if a blob transaction is not a `BlobTxWrapper` or its per-transaction
arrays have unequal lengths, otherwise concatenate commitments, proofs and
blobs in transaction order. -/
def blobsBundleOfTxs : List Txn → Except String (List (List Nat) × List (List Nat) × List (List Nat))
  | [] => .ok ([], [], [])
  | tx :: rest =>
    if tx.typ ≠ blobTxType then
      blobsBundleOfTxs rest
    else if ¬ tx.isBlobWrapper then
      .error "expected blob transaction to be type BlobTxWrapper"
    else if tx.versionedHashes.length ≠ tx.commitments.length ∨
        tx.versionedHashes.length ≠ tx.proofs.length ∨
        tx.versionedHashes.length ≠ tx.blobs.length then
      .error "tx in block has inconsistent commitments / proofs / blobs / versioned hashes"
    else
      match blobsBundleOfTxs rest with
      | .error e => .error e
      | .ok (cs, ps, bs) => .ok (tx.commitments ++ cs, tx.proofs ++ ps, tx.blobs ++ bs)

/-- The response envelope `getPayload` builds from the sealed block: header
fields written back, binary transactions, withdrawals when the block has
them, data-gas fields when the header has both. -/
def executionPayloadFromBlock (block : Block) : ExecutionPayload :=
  { parentHash := block.header.parentHash
    feeRecipient := block.header.coinbase
    stateRoot := block.header.root
    receiptsRoot := block.header.receiptHash
    logsBloom := block.header.bloom
    prevRandao := block.header.mixDigest
    blockNumber := block.header.number
    gasLimit := block.header.gasLimit
    gasUsed := block.header.gasUsed
    timestamp := block.header.time
    extraData := block.header.extra
    baseFeePerGas := block.header.baseFee
    blockHash := block.hash
    transactions := block.transactions.map Txn.encoded
    withdrawals := block.withdrawals
    dataGasUsed :=
      match block.header.dataGasUsed, block.header.excessDataGas with
      | some d, some _ => some d
      | _, _ => none
    excessDataGas :=
      match block.header.dataGasUsed, block.header.excessDataGas with
      | some _, some e => some e
      | _, _ => none }

/-- `EngineServer.getPayload`: proposer and TTD guards, registry lookup
(`UNKNOWN_PAYLOAD` when absent), builder stop (its result is external state,
passed as `stop`), then response assembly. -/
def getPayload (env : EngineEnv) (st : ServerState)
    (stop : Nat → Except String BlockWithReceipts) (payloadId : Nat) :
    Except EngineError GetPayloadResponse :=
  if ¬ env.proposing then
    .error .notProposer
  else if env.config.terminalTotalDifficulty = none then
    .error (.fatal "not a proof-of-stake chain")
  else if payloadId ∉ st.builders then
    .error .unknownPayload
  else
    match stop payloadId with
    | .error e => .error (.fatal e)
    | .ok blockWithReceipts =>
      let block := blockWithReceipts.block
      match blobsBundleOfTxs block.transactions with
      | .error e => .error (.fatal e)
      | .ok bundle =>
        .ok ⟨executionPayloadFromBlock block,
          blockValue blockWithReceipts block.header.baseFee,
          ⟨bundle.1, bundle.2.1, bundle.2.2⟩⟩

/-- `binary.BigEndian.Uint64` on a byte slice: the bounds check `_ = b[7]`
panics when the slice is shorter than 8 bytes (`none` here); otherwise the
big-endian value of the first 8 bytes. -/
def binaryBigEndianUint64 (bs : List Nat) : Option Nat :=
  if bs.length < 8 then
    none
  else
    some ((bs.take 8).foldl (fun acc b => acc * 256 + b) 0)

/-- `EngineServer.GetPayloadV1`: unguarded big-endian decode of the wire
payload id, then `getPayload`, returning only the execution payload.  `none`
models the Go panic on a short id. -/
def GetPayloadV1 (env : EngineEnv) (st : ServerState)
    (stop : Nat → Except String BlockWithReceipts) (payloadId : List Nat) :
    Option (Except EngineError ExecutionPayload) :=
  match binaryBigEndianUint64 payloadId with
  | none => none
  | some decodedPayloadId =>
    some (match getPayload env st stop decodedPayloadId with
      | .error e => .error e
      | .ok response => .ok response.executionPayload)

/-- `EngineServer.GetPayloadV2`: unguarded big-endian decode, then
`getPayload`. -/
def GetPayloadV2 (env : EngineEnv) (st : ServerState)
    (stop : Nat → Except String BlockWithReceipts) (payloadID : List Nat) :
    Option (Except EngineError GetPayloadResponse) :=
  match binaryBigEndianUint64 payloadID with
  | none => none
  | some decodedPayloadId => some (getPayload env st stop decodedPayloadId)

/-- `EngineServer.GetPayloadV3`: identical dispatch to `GetPayloadV2`. -/
def GetPayloadV3 (env : EngineEnv) (st : ServerState)
    (stop : Nat → Except String BlockWithReceipts) (payloadID : List Nat) :
    Option (Except EngineError GetPayloadResponse) :=
  match binaryBigEndianUint64 payloadID with
  | none => none
  | some decodedPayloadId => some (getPayload env st stop decodedPayloadId)

/-- `engine_types.ExecutionPayloadBodyV1`. -/
structure ExecutionPayloadBodyV1 where
  transactions : List (List Nat)
  withdrawals : Option (List Withdrawal)
deriving Repr

/-- `extractPayloadBodyFromBlock`: a nil block gives a nil body, otherwise the
binary transactions and the withdrawals. -/
def extractPayloadBodyFromBlock (block : Option Block) : Option ExecutionPayloadBodyV1 :=
  match block with
  | none => none
  | some b => some ⟨b.transactions.map Txn.encoded, b.withdrawals⟩

/-- The loop of `getPayloadBodiesByRange` at position `pos` with `n` heights
left: stop at the first zero canonical hash, otherwise read the block with
senders and emit its body. -/
def getPayloadBodiesRangeLoop (store : ChainStore) (pos : Nat) :
    Nat → List (Option ExecutionPayloadBodyV1)
  | 0 => []
  | n + 1 =>
    let hash := store.canonicalHashAt pos
    if hash = zeroHash then
      []
    else
      extractPayloadBodyFromBlock (store.blockWithSenders hash pos) ::
        getPayloadBodiesRangeLoop store (pos + 1) n

/-- `EngineServer.getPayloadBodiesByRange`. -/
def getPayloadBodiesByRange (store : ChainStore) (start count : Nat) :
    List (Option ExecutionPayloadBodyV1) :=
  getPayloadBodiesRangeLoop store start count

/-- `EngineServer.GetPayloadBodiesByRangeV1`: parameter guards, then the range
read. -/
def GetPayloadBodiesByRangeV1 (store : ChainStore) (start count : Nat) :
    Except EngineError (List (Option ExecutionPayloadBodyV1)) :=
  if start = 0 ∨ count = 0 then
    .error (.invalidParams ("invalid start or count, start: " ++ toString start ++
      " count: " ++ toString count))
  else if 1024 < count then
    .error .tooLargeRequest
  else
    .ok (getPayloadBodiesByRange store start count)

/-- Modelled from the spec: the package-level constant `errContextExceeded`
of package `execution_client` is defined outside the embedded files; the spec
describes it as the "context deadline exceeded" error string. -/
def errContextExceeded : String := "context deadline exceeded"

/-- `execution_client.checkPayloadStatus`: `none` is a nil error. -/
def checkPayloadStatus (payloadStatus : Option PayloadStatus) : Option String :=
  match payloadStatus with
  | none => some "empty payloadStatus"
  | some ps =>
    match ps.validationError with
    | some validationError => some validationError
    | none =>
      if ps.status ≠ .valid ∧ ps.status ≠ .accepted then
        some ("status: " ++ ps.status.wireName)
      else
        none

/-- `ExecutionClientRpc.ForkChoiceUpdate`.  `callResult` is the outcome of
`cc.client.CallContext`: an error, or the payload status it decoded into the
response (nil when absent).  The first error test returns the wrapped error
unconditionally; on the remaining path the call error is nil, which is what
the source's two later error tests (the `errContextExceeded` translation to
nil, and the plain propagation) still inspect — rendered literally below over
the now-nil error, they never fire. -/
def ForkChoiceUpdate (callResult : Except String (Option PayloadStatus)) : Option String :=
  match callResult with
  | .error e =>
    some ("execution Client RPC failed to retrieve ForkChoiceUpdate response, err: " ++ e)
  | .ok payloadStatus =>
    let err : Option String := none
    if err ≠ none ∧ err = some errContextExceeded then
      none
    else if err ≠ none then
      err
    else
      checkPayloadStatus payloadStatus

/-- Big-endian value of a byte list (specification-side helper). -/
def bigEndianValue (bs : List Nat) : Nat :=
  bs.foldl (fun acc b => acc * 256 + b) 0

/-! Concrete fixtures used by witnesses and counterexamples. -/

/-- A concrete stored head header (height 41, time 450). -/
def headerW : Header :=
  ⟨4, 0, 0, [], 7, [], 41, 0, 30000000, 450, 0, emptyUncleHash, 0, 0, 0, 0, none, none, none⟩

/-- Concrete external collaborators: the stored head header hashes to `5`,
everything else to `187`. -/
def extW : Ext where
  headerHash := fun h => if h.number = 41 then 5 else 187
  deriveShaTransactions := fun _ => 11
  deriveShaWithdrawals := fun _ => 12
  typedTxnMarshalledAsRlpString := fun _ => false
  decodeTransactions := fun _ => .ok []

/-- Concrete downloader snapshot: PoS-synced, idle, no bad headers, stage
loop free. -/
def hdW : HeaderDownload where
  posSync := true
  posStatusIdle := true
  badHeaderPoS := fun _ => none
  stageLoopBusy := false

/-- Concrete chain config: TTD 1000, Shanghai at time 500, no Cancun. -/
def configW : ChainConfig := ⟨some 1000, some 500, none⟩

/-- Concrete server environment (running as a proposer). -/
def envW : EngineEnv := ⟨configW, extW, hdW, true⟩

/-- Concrete chain-store snapshot: persisted forkchoice triple (5, 6, 7),
head block `5` with header `headerW`, parent `9` with total difficulty 999. -/
def storeW : ChainStore where
  forkchoiceHead := 5
  forkchoiceSafe := 6
  forkchoiceFinalized := 7
  headerByHash := fun h => if h = 5 then some headerW else none
  tdByHash := fun h => if h = 9 then some 999 else none
  canonicalHashAt := fun _ => 0
  headBlockHash := 5
  blockWithSenders := fun _ _ => none

/-- Concrete initial proposer state (as set up by `NewEngineServer`). -/
def stW : ServerState := ⟨0, none, ∅⟩

/-- Concrete builder-stop behaviour for `getPayload` fixtures. -/
def stopW : Nat → Except String BlockWithReceipts := fun _ => .error "stopped"

/-- A concrete post-Shanghai envelope (timestamp 600) with an empty
withdrawals list, stated block hash 170, and whose reconstructed header
hashes to 187 under `extW`. -/
def reqW1 : ExecutionPayload where
  parentHash := 4
  feeRecipient := 0
  stateRoot := 0
  receiptsRoot := 0
  logsBloom := []
  prevRandao := 0
  blockNumber := 1
  gasLimit := 30000000
  gasUsed := 0
  timestamp := 600
  extraData := []
  baseFeePerGas := 7
  blockHash := 170
  transactions := []
  withdrawals := some []
  dataGasUsed := none
  excessDataGas := none

/-- The same envelope at a pre-Shanghai timestamp (100), still carrying a
withdrawals list. -/
def reqW6 : ExecutionPayload :=
  { reqW1 with timestamp := 100 }

/-! Claim C2 (code bug).  The spec's intended behaviour — translate a
"context deadline exceeded" RPC failure into success — is unreachable in
`ExecutionClientRpc.ForkChoiceUpdate`: the first error test returns the
wrapped error unconditionally, so the deadline error propagates. -/

/-- C2: a ForkChoiceUpdate whose underlying JSON-RPC call fails with
"context deadline exceeded" returns the wrapped error, not success; the
claimed translation to a nil error does not happen. -/
theorem ForkChoiceUpdate_deadline_error_propagates :
    ForkChoiceUpdate (.error errContextExceeded) ≠ none ∧
      ForkChoiceUpdate (.error errContextExceeded) =
        some ("execution Client RPC failed to retrieve ForkChoiceUpdate response, err: " ++
          errContextExceeded) := by
  exact ⟨by decide, rfl⟩

/-- C9: encoding a 64-bit payload id for the wire yields exactly 8 bytes in
big-endian order, and the big-endian decode of that encoding returns the
original id. -/
theorem convertPayloadId_roundTrip (payloadId : Nat) (h : payloadId < 2 ^ 64) :
    (convertPayloadId payloadId).length = 8 ∧
      binaryBigEndianUint64 (convertPayloadId payloadId) = some payloadId := by
  refine ⟨rfl, ?_⟩
  unfold binaryBigEndianUint64 convertPayloadId
  norm_num [List.foldl]
  omega

/-- C9 witness: round trip at id 0x0123456789ABCDEF. -/
theorem convertPayloadId_roundTrip_witness :
    (convertPayloadId 81985529216486895).length = 8 ∧
      binaryBigEndianUint64 (convertPayloadId 81985529216486895) = some 81985529216486895 :=
  convertPayloadId_roundTrip 81985529216486895 (by norm_num)

/-- C10: the three GetPayload entry points decode the wire payload id with an
unguarded fixed-width 8-byte big-endian read: with at least 8 bytes they are
defined and use exactly the first 8 bytes; with fewer the read panics
(`none`), so totality holds only under the 8-byte precondition. -/
theorem getPayload_wire_decode (env : EngineEnv) (st : ServerState)
    (stop : Nat → Except String BlockWithReceipts) (bs : List Nat) :
    (bs.length < 8 →
      GetPayloadV1 env st stop bs = none ∧ GetPayloadV2 env st stop bs = none ∧
        GetPayloadV3 env st stop bs = none) ∧
    (8 ≤ bs.length →
      GetPayloadV1 env st stop bs =
          some (match getPayload env st stop (bigEndianValue (bs.take 8)) with
            | .error e => .error e
            | .ok response => .ok response.executionPayload) ∧
        GetPayloadV2 env st stop bs = some (getPayload env st stop (bigEndianValue (bs.take 8))) ∧
        GetPayloadV3 env st stop bs = some (getPayload env st stop (bigEndianValue (bs.take 8)))) := by
  constructor
  · intro hlt
    simp [GetPayloadV1, GetPayloadV2, GetPayloadV3, binaryBigEndianUint64, hlt]
  · intro hge
    have hnlt : ¬ bs.length < 8 := by omega
    simp [GetPayloadV1, GetPayloadV2, GetPayloadV3, binaryBigEndianUint64, bigEndianValue, hnlt]

/-- C10 witness: a 3-byte id panics on all three versions; a 9-byte id
decodes from its first 8 bytes. -/
theorem getPayload_wire_decode_witness :
    (GetPayloadV1 envW stW stopW [1, 2, 3] = none ∧ GetPayloadV2 envW stW stopW [1, 2, 3] = none ∧
      GetPayloadV3 envW stW stopW [1, 2, 3] = none) ∧
    GetPayloadV2 envW stW stopW [0, 0, 0, 0, 0, 0, 1, 2, 9] =
      some (getPayload envW stW stopW (bigEndianValue ([0, 0, 0, 0, 0, 0, 1, 2, 9].take 8))) :=
  ⟨(getPayload_wire_decode envW stW stopW [1, 2, 3]).1 (by decide),
    ((getPayload_wire_decode envW stW stopW [0, 0, 0, 0, 0, 0, 1, 2, 9]).2 (by decide)).2.1⟩

/-- C7: on the NewPayload side, when the parent's total difficulty is known
and strictly below the configured terminal total difficulty, the classifier
answers INVALID with the zero hash as latest valid hash (and reports no bad
headers). -/
theorem getQuickPayloadStatus_preTTD_invalid (env : EngineEnv) (store : ChainStore)
    (blockHash : Hash) (blockNumber : Nat) (parentHash : Hash) (ttd td : Nat)
    (httd : env.config.terminalTotalDifficulty = some ttd)
    (htd : store.tdByHash parentHash = some td) (hlt : td < ttd) :
    getQuickPayloadStatusIfPossible env store blockHash blockNumber parentHash none true =
      .ok (some ⟨.invalid, some zeroHash, none, none⟩, []) := by
  unfold getQuickPayloadStatusIfPossible
  rw [httd]
  simp [fcuTripleMatchesStore, htd, tdBelowTerminal, hlt]

/-- C7 witness: block 8 at height 1 whose parent 9 has stored total
difficulty 999 against TTD 1000. -/
theorem getQuickPayloadStatus_preTTD_invalid_witness :
    getQuickPayloadStatusIfPossible envW storeW 8 1 9 none true =
      .ok (some ⟨.invalid, some zeroHash, none, none⟩, []) :=
  getQuickPayloadStatus_preTTD_invalid envW storeW 8 1 9 1000 999 rfl rfl (by decide)

/-- C3: a ForkchoiceUpdated whose triple equals the persisted forkchoice
triple is answered by the classifier alone: VALID with the head hash as
latest valid hash, nothing is enqueued to the importer, no builder is
created and the state is untouched. -/
theorem forkchoiceUpdated_repeated_triple (env : EngineEnv) (store : ChainStore)
    (st : ServerState) (f : ForkChoiceState) (version : Nat) (reply : PayloadStatus) (ttd : Nat)
    (httd : env.config.terminalTotalDifficulty = some ttd)
    (hfin : f.finalizedBlockHash = store.forkchoiceFinalized)
    (hhead : f.headHash = store.forkchoiceHead)
    (hsafe : f.safeBlockHash = store.forkchoiceSafe) :
    forkchoiceUpdated env store st f none version reply =
      ⟨.ok ⟨⟨.valid, some f.headHash, none, none⟩, none⟩, st, false, 0⟩ := by
  unfold forkchoiceUpdated getQuickPayloadStatusIfPossible
  rw [httd]
  simp [fcuTripleMatchesStore, hfin, hhead, hsafe, forkchoiceUpdatedPost]

/-- C3 witness: the triple (5, 6, 7) equals the persisted triple of the
concrete store; the call is answered VALID with latest valid hash 5 without
importer involvement. -/
theorem forkchoiceUpdated_repeated_triple_witness :
    forkchoiceUpdated envW storeW stW ⟨5, 6, 7⟩ none capellaVersion ⟨.syncing, none, none, none⟩ =
      ⟨.ok ⟨⟨.valid, some 5, none, none⟩, none⟩, stW, false, 0⟩ :=
  forkchoiceUpdated_repeated_triple envW storeW stW ⟨5, 6, 7⟩ capellaVersion
    ⟨.syncing, none, none, none⟩ 1000 rfl rfl rfl rfl

/-- Helper: `takeWhile` commutes with `map`. -/
theorem takeWhile_map_eq {α β : Type} (f : α → β) (p : β → Bool) (l : List α) :
    (l.map f).takeWhile p = (l.takeWhile fun a => p (f a)).map f := by
  induction l with
  | nil => rfl
  | cons a t ih =>
    simp only [List.map_cons, List.takeWhile_cons]
    cases p (f a) <;> simp [ih]

/-- Helper: the range-read loop produces exactly the bodies of the canonical
hashes at the requested heights, in order, truncated at the first zero
canonical hash. -/
theorem getPayloadBodiesRangeLoop_eq (store : ChainStore) (pos n : Nat) :
    getPayloadBodiesRangeLoop store pos n =
      (((List.range' pos n).takeWhile fun j => decide (store.canonicalHashAt j ≠ zeroHash)).map
        fun j => extractPayloadBodyFromBlock (store.blockWithSenders (store.canonicalHashAt j) j)) := by
  induction n generalizing pos with
  | zero => rfl
  | succ n ih =>
    rw [List.range'_succ, List.takeWhile_cons]
    by_cases hz : store.canonicalHashAt pos = zeroHash
    · simp [getPayloadBodiesRangeLoop, hz]
    · simp [getPayloadBodiesRangeLoop, hz, ih]

/-- C8: GetPayloadBodiesByRangeV1 rejects a zero start or count with
INVALID_PARAMS and a count above 1024 with TOO_LARGE_REQUEST; otherwise it
returns the compact list of payload bodies for the canonical hashes at
heights start, start+1, …, start+count−1, in order, truncated at the first
gap (zero canonical hash). -/
theorem GetPayloadBodiesByRangeV1_spec (store : ChainStore) (start count : Nat) :
    GetPayloadBodiesByRangeV1 store start count =
      (if start = 0 ∨ count = 0 then
        .error (.invalidParams ("invalid start or count, start: " ++ toString start ++
          " count: " ++ toString count))
      else if 1024 < count then
        .error .tooLargeRequest
      else
        .ok (((List.range' start count).takeWhile
            fun j => decide (store.canonicalHashAt j ≠ zeroHash)).map
          fun j => extractPayloadBodyFromBlock
            (store.blockWithSenders (store.canonicalHashAt j) j))) := by
  unfold GetPayloadBodiesByRangeV1 getPayloadBodiesByRange
  rw [getPayloadBodiesRangeLoop_eq]

/-- Helper: the reconstructed header keeps the envelope's timestamp. -/
theorem reconstructHeader_time (ext : Ext) (req : ExecutionPayload) (version : Nat) :
    (reconstructHeader ext req version).time = req.timestamp := rfl

/-- C1 counterexample: a Capella payload whose reconstructed header hashes to
187 while its stated block hash is 170 is answered with status INVALID — not
INVALID_BLOCK_HASH as the claim states — with latest valid hash nil and
validation error "invalid block hash". -/
theorem newPayload_hash_mismatch_status_counterexample :
    newPayload envW storeW reqW1 capellaVersion =
      .status ⟨.invalid, none, some "invalid block hash", none⟩ ∧
    extW.headerHash (reconstructHeader extW reqW1 capellaVersion) ≠ reqW1.blockHash ∧
    EngineStatus.invalid ≠ EngineStatus.invalidBlockHash :=
  ⟨rfl, by decide, by decide⟩

/-- C1 (amended): when the fork-gated field checks pass and the reconstructed
header's hash differs from the stated block hash, newPayload returns the
PayloadStatus with status INVALID, latest valid hash nil and validation error
"invalid block hash", and the payload is not enqueued to the importer. -/
theorem newPayload_hash_mismatch (env : EngineEnv) (store : ChainStore) (req : ExecutionPayload)
    (version : Nat)
    (hw : checkWithdrawalsPresence env.config req.timestamp (versionedWithdrawals req version) = none)
    (hc1 : ¬ (¬ env.config.isCancun req.timestamp ∧
      ((reconstructHeader env.ext req version).dataGasUsed ≠ none ∨
        (reconstructHeader env.ext req version).excessDataGas ≠ none)))
    (hc2 : ¬ (env.config.isCancun req.timestamp ∧
      ((reconstructHeader env.ext req version).dataGasUsed = none ∨
        (reconstructHeader env.ext req version).excessDataGas = none)))
    (hh : env.ext.headerHash (reconstructHeader env.ext req version) ≠ req.blockHash) :
    newPayload env store req version =
      .status ⟨.invalid, none, some "invalid block hash", none⟩ := by
  simp only [newPayload, reconstructHeader_time]
  rw [hw]
  rw [if_neg hc1, if_neg hc2, if_pos hh]

/-- C1 witness: the amended statement evaluated on the concrete mismatching
payload. -/
theorem newPayload_hash_mismatch_witness :
    newPayload envW storeW reqW1 capellaVersion =
      .status ⟨.invalid, none, some "invalid block hash", none⟩ :=
  newPayload_hash_mismatch envW storeW reqW1 capellaVersion (by decide) (by decide) (by decide)
    (by decide)

/-- C6 counterexample: a Bellatrix-version call whose envelope carries a
withdrawals list at a pre-Shanghai timestamp is not rejected with
INVALID_PARAMS: the envelope's withdrawals are dropped by version gating
before the presence check, and the call proceeds (here to the block-hash
verdict). -/
theorem newPayload_withdrawals_presence_counterexample :
    reqW6.withdrawals ≠ none ∧
    envW.config.isShanghai reqW6.timestamp = false ∧
    ¬ ∃ msg, newPayload envW storeW reqW6 bellatrixVersion = .err (.invalidParams msg) := by
  refine ⟨by decide, by decide, ?_⟩
  rintro ⟨msg, hmsg⟩
  exact NewPayloadOutcome.noConfusion
    ((rfl :
      newPayload envW storeW reqW6 bellatrixVersion =
        .status ⟨.invalid, none, some "invalid block hash", none⟩).symm.trans hmsg)

/-- C6 (amended): whenever the presence of the version-gated withdrawals
list (the envelope's list from the Capella version on, dropped below it)
disagrees with Shanghai activation at the payload timestamp, newPayload
fails with INVALID_PARAMS and the payload never reaches the importer. -/
theorem newPayload_withdrawals_gating (env : EngineEnv) (store : ChainStore)
    (req : ExecutionPayload) (version : Nat)
    (hmis : (versionedWithdrawals req version).isSome ≠ env.config.isShanghai req.timestamp) :
    newPayload env store req version =
      .err (.invalidParams
        (if (versionedWithdrawals req version).isSome then "withdrawals before shanghai"
          else "missing withdrawals list")) := by
  cases hw : versionedWithdrawals req version with
  | none =>
    cases hS : env.config.isShanghai req.timestamp with
    | false => rw [hw, hS] at hmis; simp at hmis
    | true =>
      simp only [newPayload, reconstructHeader_time, hw]
      simp [checkWithdrawalsPresence, hS]
  | some w =>
    cases hS : env.config.isShanghai req.timestamp with
    | true => rw [hw, hS] at hmis; simp at hmis
    | false =>
      simp only [newPayload, reconstructHeader_time, hw]
      simp [checkWithdrawalsPresence, hS]

/-- C6 witness: the amended statement on a Capella call carrying withdrawals
at a pre-Shanghai timestamp. -/
theorem newPayload_withdrawals_gating_witness :
    newPayload envW storeW reqW6 capellaVersion =
      .err (.invalidParams "withdrawals before shanghai") :=
  newPayload_withdrawals_gating envW storeW reqW6 capellaVersion (by decide)

/-- Helper: one unfolding of the eviction loop. -/
theorem evictLoop_succ_eq (ids : List Nat) (b : Finset Nat) (i fuel : Nat) :
    evictLoop ids b i (fuel + 1) =
      (if (i : Int) ≤ (b.card : Int) - (MaxBuilders : Int) then
        evictLoop ids (b.erase (ids.getD i 0)) (i + 1) fuel
      else b) := rfl

/-- Helper: the head of the ascending key list is a member of the registry
when it is non-empty. -/
theorem sortHead_mem (b : Finset Nat) (h : 0 < b.card) :
    (b.sort (· ≤ ·)).getD 0 0 ∈ b := by
  rcases hs : b.sort (· ≤ ·) with _ | ⟨x, xs⟩
  · have hlen : (b.sort (· ≤ ·)).length = b.card := Finset.length_sort _
    rw [hs] at hlen
    simp at hlen
    omega
  · have hx : x ∈ b.sort (· ≤ ·) := by rw [hs]; exact List.mem_cons_self x xs
    simp only [List.getD_cons_zero]
    exact (Finset.mem_sort _).mp hx

/-- Helper: the head of the ascending key list is a lower bound of the
registry. -/
theorem sortHead_le (b : Finset Nat) {x : Nat} (hx : x ∈ b) :
    (b.sort (· ≤ ·)).getD 0 0 ≤ x := by
  have hsorted : List.Sorted (· ≤ ·) (b.sort (· ≤ ·)) := Finset.sort_sorted _ _
  have hxs : x ∈ b.sort (· ≤ ·) := (Finset.mem_sort _).mpr hx
  rcases hs : b.sort (· ≤ ·) with _ | ⟨y, ys⟩
  · rw [hs] at hxs
    simp at hxs
  · rw [hs] at hxs hsorted
    simp only [List.getD_cons_zero]
    rcases List.mem_cons.mp hxs with h1 | h2
    · omega
    · exact (List.sorted_cons.mp hsorted).1 x h2

/-- Helper: a registry strictly below the bound is untouched by eviction. -/
theorem evictOldBuilders_of_card_lt (b : Finset Nat) (h : b.card < MaxBuilders) :
    evictOldBuilders b = b := by
  unfold evictOldBuilders
  rw [evictLoop_succ_eq, if_neg (by simp only [MaxBuilders] at h ⊢; omega)]

/-- Helper: a registry exactly at the bound loses exactly its smallest id. -/
theorem evictOldBuilders_of_card_eq (b : Finset Nat) (h : b.card = MaxBuilders) :
    evictOldBuilders b = b.erase ((b.sort (· ≤ ·)).getD 0 0) := by
  have hmem : (b.sort (· ≤ ·)).getD 0 0 ∈ b := sortHead_mem b (by rw [h]; decide)
  have hcard : (b.erase ((b.sort (· ≤ ·)).getD 0 0)).card = MaxBuilders - 1 := by
    rw [Finset.card_erase_of_mem hmem, h]
  unfold evictOldBuilders
  rw [evictLoop_succ_eq, if_pos (by simp only [h, MaxBuilders]; omega), h]
  rw [show (MaxBuilders : Nat) = 127 + 1 from rfl, evictLoop_succ_eq,
    if_neg (by rw [hcard]; simp only [MaxBuilders]; omega)]

/-- Helper: eviction leaves strictly fewer than `MaxBuilders` entries on
every registry within the bound. -/
theorem evictOldBuilders_card_lt (b : Finset Nat) (h : b.card ≤ MaxBuilders) :
    (evictOldBuilders b).card < MaxBuilders := by
  rcases lt_or_eq_of_le h with hlt | heq
  · rw [evictOldBuilders_of_card_lt b hlt]
    exact hlt
  · rw [evictOldBuilders_of_card_eq b heq,
      Finset.card_erase_of_mem (sortHead_mem b (by rw [heq]; decide)), heq]
    decide

/-- Helper: the evict-then-insert step of `forkchoiceUpdated` preserves the
registry bound. -/
theorem insertBuilder_card (b : Finset Nat) (id : Nat) (h : b.card ≤ MaxBuilders) :
    (insert id (evictOldBuilders b)).card ≤ MaxBuilders :=
  le_trans (Finset.card_insert_le _ _) (by have := evictOldBuilders_card_lt b h; omega)

/-- The registry id set after a sequence of builder insertions, each
performed as `forkchoiceUpdated` does it: evict, then insert the fresh id
(starting from the empty registry of `NewEngineServer`). -/
def runBuilderInsertions (ids : List Nat) : Finset Nat :=
  ids.foldl (fun b id => insert id (evictOldBuilders b)) ∅

/-- Helper: the insertion fold keeps the bound from any start below it. -/
theorem runBuilderInsertions_aux (ids : List Nat) (b : Finset Nat) (h : b.card ≤ MaxBuilders) :
    (ids.foldl (fun b id => insert id (evictOldBuilders b)) b).card ≤ MaxBuilders := by
  induction ids generalizing b with
  | nil => simpa using h
  | cons id rest ih => exact ih _ (insertBuilder_card b id h)

/-- Helper: one `forkchoiceUpdated` tail either leaves the registry unchanged
or performs exactly the evict-then-insert step. -/
theorem forkchoiceUpdatedPost_builders (env : EngineEnv) (store : ChainStore) (st : ServerState)
    (f : ForkChoiceState) (attrs : Option PayloadAttributes) (version : Nat)
    (status : PayloadStatus) (used : Bool) :
    (forkchoiceUpdatedPost env store st f attrs version status used).state.builders =
        st.builders ∨
      (forkchoiceUpdatedPost env store st f attrs version status used).state.builders =
        insert ((st.payloadId + 1) % 2 ^ 64) (evictOldBuilders st.builders) := by
  unfold forkchoiceUpdatedPost
  rcases attrs with _ | attrs
  · exact Or.inl rfl
  · dsimp only
    repeat'
      first
        | split
        | dsimp only
    all_goals first
      | exact Or.inl rfl
      | exact Or.inr rfl

/-- Helper: one full `forkchoiceUpdated` call preserves the registry
bound. -/
theorem forkchoiceUpdated_builders_bound (env : EngineEnv) (store : ChainStore)
    (st : ServerState) (f : ForkChoiceState) (attrs : Option PayloadAttributes) (version : Nat)
    (reply : PayloadStatus) (h : st.builders.card ≤ MaxBuilders) :
    (forkchoiceUpdated env store st f attrs version reply).state.builders.card ≤ MaxBuilders := by
  unfold forkchoiceUpdated
  repeat' split
  all_goals
    first
      | exact h
      | (rcases forkchoiceUpdatedPost_builders env store st f attrs version _ _ with hb | hb <;>
          rw [hb] <;> first | exact h | exact insertBuilder_card _ _ h)

/-- C5: after any sequence of builder insertions the registry holds at most
`MaxBuilders` entries; one live `forkchoiceUpdated` call preserves that
bound; and on every reachable registry an eviction only removes ids that are
at most every surviving id (the numerically smallest first). -/
theorem builders_bounded_and_evictions_remove_smallest (ids : List Nat) :
    (runBuilderInsertions ids).card ≤ MaxBuilders ∧
    (∀ env store st f attrs version reply, st.builders.card ≤ MaxBuilders →
      (forkchoiceUpdated env store st f attrs version reply).state.builders.card ≤ MaxBuilders) ∧
    (∀ b : Finset Nat, b.card ≤ MaxBuilders →
      ∀ y ∈ b, y ∉ evictOldBuilders b → ∀ x ∈ evictOldBuilders b, y ≤ x) := by
  refine ⟨runBuilderInsertions_aux ids ∅ (by simp), forkchoiceUpdated_builders_bound, ?_⟩
  intro b hb y hy hyev x hxev
  rcases lt_or_eq_of_le hb with hlt | heq
  · rw [evictOldBuilders_of_card_lt b hlt] at hyev
    exact absurd hy hyev
  · rw [evictOldBuilders_of_card_eq b heq] at hyev hxev
    have hyhead : y = (b.sort (· ≤ ·)).getD 0 0 := by
      by_contra hne
      exact hyev (Finset.mem_erase.mpr ⟨hne, hy⟩)
    rw [hyhead]
    exact sortHead_le b (Finset.mem_of_mem_erase hxev)

/-- C5 witness: three insertions stay within the bound, a concrete
`forkchoiceUpdated` call preserves it, and on the full registry 0, …, 127 the
evicted id 0 is at most the surviving id 1. -/
theorem builders_bounded_witness :
    (runBuilderInsertions [1, 2, 3]).card ≤ MaxBuilders ∧
    (forkchoiceUpdated envW storeW stW ⟨5, 6, 7⟩ none capellaVersion
      ⟨.syncing, none, none, none⟩).state.builders.card ≤ MaxBuilders ∧
    (0 : Nat) ≤ 1 := by
  have hhead : ((Finset.range 128).sort (· ≤ ·)).getD 0 0 = 0 :=
    Nat.le_antisymm (sortHead_le _ (by simp)) (Nat.zero_le _)
  have hev : evictOldBuilders (Finset.range 128) = (Finset.range 128).erase 0 := by
    rw [evictOldBuilders_of_card_eq _ (by simp [MaxBuilders]), hhead]
  refine ⟨(builders_bounded_and_evictions_remove_smallest [1, 2, 3]).1,
    (builders_bounded_and_evictions_remove_smallest []).2.1 envW storeW stW ⟨5, 6, 7⟩ none
      capellaVersion ⟨.syncing, none, none, none⟩ (by decide),
    (builders_bounded_and_evictions_remove_smallest []).2.2 (Finset.range 128)
      (by simp [MaxBuilders]) 0 (by simp) (by rw [hev]; exact Finset.not_mem_erase 0 _) 1
      (by rw [hev]; exact Finset.mem_erase.mpr ⟨by decide, by simp⟩)⟩

/-- Helper: the withdrawals of a normalised build-parameter record do not
depend on the payload id. -/
theorem buildParams_withdrawals (f : ForkChoiceState) (attrs : PayloadAttributes)
    (version pid : Nat) :
    (buildParams f attrs version pid).withdrawals =
      (if capellaVersion ≤ version then attrs.withdrawals else none) := rfl

/-- Helper: a `forkchoiceUpdated` call that reaches the build phase with a
fresh parameter record evicts, increments the counter, records the
parameters, registers exactly one new builder and returns the new id. -/
theorem forkchoiceUpdated_fresh_build (env : EngineEnv) (store : ChainStore) (st : ServerState)
    (f : ForkChoiceState) (attrs : PayloadAttributes) (version : Nat) (reply : PayloadStatus)
    (qs : PayloadStatus) (rs : List (Hash × Hash)) (headHeader : Header)
    (hq : getQuickPayloadStatusIfPossible env store f.headHash 0 zeroHash (some f) false =
      .ok (some qs, rs))
    (hv : qs.status = .valid)
    (hp : env.proposing = true)
    (hhd : store.headerByHash store.headBlockHash = some headHeader)
    (hhh : env.ext.headerHash headHeader = f.headHash)
    (ht : headHeader.time < attrs.timestamp)
    (hwp : checkWithdrawalsPresence env.config attrs.timestamp
      (buildParams f attrs version st.payloadId).withdrawals = none)
    (hfresh : st.lastParameters ≠ some (buildParams f attrs version st.payloadId)) :
    forkchoiceUpdated env store st f (some attrs) version reply =
      ⟨.ok ⟨⟨.valid, some store.headBlockHash, none, none⟩,
          some (convertPayloadId ((st.payloadId + 1) % 2 ^ 64))⟩,
        ⟨(st.payloadId + 1) % 2 ^ 64,
          some (buildParams f attrs version ((st.payloadId + 1) % 2 ^ 64)),
          insert ((st.payloadId + 1) % 2 ^ 64) (evictOldBuilders st.builders)⟩,
        false, 1⟩ := by
  unfold forkchoiceUpdated
  rw [hq]
  dsimp only
  unfold forkchoiceUpdatedPost
  dsimp only
  rw [if_neg (by simp [hv]), if_neg (by simp [hp]), hhd]
  dsimp only
  rw [if_neg (by simp [hhh]), if_neg (by omega), hwp]
  dsimp only
  rw [if_neg hfresh]

/-- Helper: a `forkchoiceUpdated` call that reaches the build phase with a
parameter record equal to the recorded one creates no builder and returns the
existing id. -/
theorem forkchoiceUpdated_dup_request (env : EngineEnv) (store : ChainStore) (st : ServerState)
    (f : ForkChoiceState) (attrs : PayloadAttributes) (version : Nat) (reply : PayloadStatus)
    (qs : PayloadStatus) (rs : List (Hash × Hash)) (headHeader : Header)
    (hq : getQuickPayloadStatusIfPossible env store f.headHash 0 zeroHash (some f) false =
      .ok (some qs, rs))
    (hv : qs.status = .valid)
    (hp : env.proposing = true)
    (hhd : store.headerByHash store.headBlockHash = some headHeader)
    (hhh : env.ext.headerHash headHeader = f.headHash)
    (ht : headHeader.time < attrs.timestamp)
    (hwp : checkWithdrawalsPresence env.config attrs.timestamp
      (buildParams f attrs version st.payloadId).withdrawals = none)
    (hdup : st.lastParameters = some (buildParams f attrs version st.payloadId)) :
    forkchoiceUpdated env store st f (some attrs) version reply =
      ⟨.ok ⟨⟨.valid, some store.headBlockHash, none, none⟩,
          some (convertPayloadId st.payloadId)⟩, st, false, 0⟩ := by
  unfold forkchoiceUpdated
  rw [hq]
  dsimp only
  unfold forkchoiceUpdatedPost
  dsimp only
  rw [if_neg (by simp [hv]), if_neg (by simp [hp]), hhd]
  dsimp only
  rw [if_neg (by simp [hhh]), if_neg (by omega), hwp]
  dsimp only
  rw [if_pos hdup]

/-- C4: two successive ForkchoiceUpdated calls whose attributes normalise to
the same build-parameter record (same parent hash, timestamp, prevRandao,
fee recipient and withdrawals; the payload id is filled in afterwards):
the first instantiates exactly one builder, the second none, and both return
the same payload id. -/
theorem forkchoiceUpdated_dedup (env : EngineEnv) (store : ChainStore) (st : ServerState)
    (f : ForkChoiceState) (attrs : PayloadAttributes) (version : Nat) (reply : PayloadStatus)
    (qs : PayloadStatus) (rs : List (Hash × Hash)) (headHeader : Header)
    (hq : getQuickPayloadStatusIfPossible env store f.headHash 0 zeroHash (some f) false =
      .ok (some qs, rs))
    (hv : qs.status = .valid)
    (hp : env.proposing = true)
    (hhd : store.headerByHash store.headBlockHash = some headHeader)
    (hhh : env.ext.headerHash headHeader = f.headHash)
    (ht : headHeader.time < attrs.timestamp)
    (hwp : checkWithdrawalsPresence env.config attrs.timestamp
      (buildParams f attrs version st.payloadId).withdrawals = none)
    (hfresh : st.lastParameters ≠ some (buildParams f attrs version st.payloadId)) :
    (forkchoiceUpdated env store st f (some attrs) version reply).buildersCreated = 1 ∧
    (forkchoiceUpdated env store
        (forkchoiceUpdated env store st f (some attrs) version reply).state f (some attrs)
        version reply).buildersCreated = 0 ∧
    (forkchoiceUpdated env store st f (some attrs) version reply).outcome =
      .ok ⟨⟨.valid, some store.headBlockHash, none, none⟩,
        some (convertPayloadId ((st.payloadId + 1) % 2 ^ 64))⟩ ∧
    (forkchoiceUpdated env store
        (forkchoiceUpdated env store st f (some attrs) version reply).state f (some attrs)
        version reply).outcome =
      .ok ⟨⟨.valid, some store.headBlockHash, none, none⟩,
        some (convertPayloadId ((st.payloadId + 1) % 2 ^ 64))⟩ := by
  have h1 := forkchoiceUpdated_fresh_build env store st f attrs version reply qs rs headHeader
    hq hv hp hhd hhh ht hwp hfresh
  have h2 := forkchoiceUpdated_dup_request env store
    ⟨(st.payloadId + 1) % 2 ^ 64,
      some (buildParams f attrs version ((st.payloadId + 1) % 2 ^ 64)),
      insert ((st.payloadId + 1) % 2 ^ 64) (evictOldBuilders st.builders)⟩
    f attrs version reply qs rs headHeader hq hv hp hhd hhh ht hwp rfl
  rw [h1]
  dsimp only
  rw [h2]
  exact ⟨rfl, rfl, rfl, rfl⟩

/-- C4 witness: on the concrete fixtures (persisted triple matches, head
header at time 450, attributes at time 600 with empty withdrawals), the
first call registers one builder and returns id 1, the second registers none
and returns the same id. -/
theorem forkchoiceUpdated_dedup_witness :
    (forkchoiceUpdated envW storeW stW ⟨5, 6, 7⟩ (some ⟨600, 13, 14, some []⟩) capellaVersion
      ⟨.syncing, none, none, none⟩).buildersCreated = 1 ∧
    (forkchoiceUpdated envW storeW
        (forkchoiceUpdated envW storeW stW ⟨5, 6, 7⟩ (some ⟨600, 13, 14, some []⟩) capellaVersion
          ⟨.syncing, none, none, none⟩).state ⟨5, 6, 7⟩ (some ⟨600, 13, 14, some []⟩)
        capellaVersion ⟨.syncing, none, none, none⟩).buildersCreated = 0 ∧
    (forkchoiceUpdated envW storeW stW ⟨5, 6, 7⟩ (some ⟨600, 13, 14, some []⟩) capellaVersion
      ⟨.syncing, none, none, none⟩).outcome =
      .ok ⟨⟨.valid, some storeW.headBlockHash, none, none⟩,
        some (convertPayloadId ((stW.payloadId + 1) % 2 ^ 64))⟩ ∧
    (forkchoiceUpdated envW storeW
        (forkchoiceUpdated envW storeW stW ⟨5, 6, 7⟩ (some ⟨600, 13, 14, some []⟩) capellaVersion
          ⟨.syncing, none, none, none⟩).state ⟨5, 6, 7⟩ (some ⟨600, 13, 14, some []⟩)
        capellaVersion ⟨.syncing, none, none, none⟩).outcome =
      .ok ⟨⟨.valid, some storeW.headBlockHash, none, none⟩,
        some (convertPayloadId ((stW.payloadId + 1) % 2 ^ 64))⟩ :=
  forkchoiceUpdated_dedup envW storeW stW ⟨5, 6, 7⟩ ⟨600, 13, 14, some []⟩ capellaVersion
    ⟨.syncing, none, none, none⟩ ⟨.valid, some 5, none, none⟩ [] headerW rfl rfl rfl rfl
    (by decide) (by decide) (by decide) (by decide)

end Erigon
